import Mathlib

/-
Verification development for the 3DtilesParser repository.

The Python sources are shallowly embedded here.  Python floats are modelled
by exact rationals: every claim under scrutiny is about algebraic and
structural behaviour (which matrix is composed, which corners form a ring,
which tiles are persisted, when a divisor is clamped), not about rounding.
Numpy 4x4 matrices are a 16-field rational structure, flat Python transform
lists are `List Rat`, fallible Python code (exceptions such as
ZeroDivisionError or AssertionError) is embedded with Option / Except.
-/

/-- A 3-D point, as the (x, y, z) triples used throughout the repository. -/
abbrev Point3 : Type := Rat × Rat × Rat

namespace Point3

def x (p : Point3) : Rat := p.1

def y (p : Point3) : Rat := p.2.1

def z (p : Point3) : Rat := p.2.2

end Point3

/-- A 4x4 matrix of rationals, modelling the numpy matrices built by
`np.eye(4)` and `np.array(...).reshape((4, 4), order='F')`.
Field `aij` is the entry in row `i`, column `j`. -/
structure Mat4 where
  a00 : Rat
  a01 : Rat
  a02 : Rat
  a03 : Rat
  a10 : Rat
  a11 : Rat
  a12 : Rat
  a13 : Rat
  a20 : Rat
  a21 : Rat
  a22 : Rat
  a23 : Rat
  a30 : Rat
  a31 : Rat
  a32 : Rat
  a33 : Rat
deriving DecidableEq, Repr

namespace Mat4

/-- `np.eye(4)`. -/
def identity : Mat4 :=
  ⟨1, 0, 0, 0, 0, 1, 0, 0, 0, 0, 1, 0, 0, 0, 0, 1⟩

/-- Matrix product, as numpy `@` on 4x4 matrices. -/
def mul (A B : Mat4) : Mat4 where
  a00 := A.a00 * B.a00 + A.a01 * B.a10 + A.a02 * B.a20 + A.a03 * B.a30
  a01 := A.a00 * B.a01 + A.a01 * B.a11 + A.a02 * B.a21 + A.a03 * B.a31
  a02 := A.a00 * B.a02 + A.a01 * B.a12 + A.a02 * B.a22 + A.a03 * B.a32
  a03 := A.a00 * B.a03 + A.a01 * B.a13 + A.a02 * B.a23 + A.a03 * B.a33
  a10 := A.a10 * B.a00 + A.a11 * B.a10 + A.a12 * B.a20 + A.a13 * B.a30
  a11 := A.a10 * B.a01 + A.a11 * B.a11 + A.a12 * B.a21 + A.a13 * B.a31
  a12 := A.a10 * B.a02 + A.a11 * B.a12 + A.a12 * B.a22 + A.a13 * B.a32
  a13 := A.a10 * B.a03 + A.a11 * B.a13 + A.a12 * B.a23 + A.a13 * B.a33
  a20 := A.a20 * B.a00 + A.a21 * B.a10 + A.a22 * B.a20 + A.a23 * B.a30
  a21 := A.a20 * B.a01 + A.a21 * B.a11 + A.a22 * B.a21 + A.a23 * B.a31
  a22 := A.a20 * B.a02 + A.a21 * B.a12 + A.a22 * B.a22 + A.a23 * B.a32
  a23 := A.a20 * B.a03 + A.a21 * B.a13 + A.a22 * B.a23 + A.a23 * B.a33
  a30 := A.a30 * B.a00 + A.a31 * B.a10 + A.a32 * B.a20 + A.a33 * B.a30
  a31 := A.a30 * B.a01 + A.a31 * B.a11 + A.a32 * B.a21 + A.a33 * B.a31
  a32 := A.a30 * B.a02 + A.a31 * B.a12 + A.a32 * B.a22 + A.a33 * B.a32
  a33 := A.a30 * B.a03 + A.a31 * B.a13 + A.a32 * B.a23 + A.a33 * B.a33

/-- `np.array(array, dtype=np.float64).reshape((4, 4), order='F')`:
entry (i, j) of the matrix is element `i + 4*j` of the flat column-major
list (missing elements default to 0; the caller guards the length). -/
def fromColumnMajor (l : List Rat) : Mat4 where
  a00 := l.getD 0 0
  a01 := l.getD 4 0
  a02 := l.getD 8 0
  a03 := l.getD 12 0
  a10 := l.getD 1 0
  a11 := l.getD 5 0
  a12 := l.getD 9 0
  a13 := l.getD 13 0
  a20 := l.getD 2 0
  a21 := l.getD 6 0
  a22 := l.getD 10 0
  a23 := l.getD 14 0
  a30 := l.getD 3 0
  a31 := l.getD 7 0
  a32 := l.getD 11 0
  a33 := l.getD 15 0

/-- `_apply_transform` of core/tilesParserSinglePoligonZ.py:
`matrix @ np.append(point, 1.0)` and keep the first three components
(a plain affine application, no perspective divide in this pipeline). -/
def applyPoint (M : Mat4) (p : Point3) : Point3 :=
  (M.a00 * p.x + M.a01 * p.y + M.a02 * p.z + M.a03,
   M.a10 * p.x + M.a11 * p.y + M.a12 * p.z + M.a13,
   M.a20 * p.x + M.a21 * p.y + M.a22 * p.z + M.a23)

end Mat4

/-- The 12-scalar oriented box descriptor `bv._box`:
elements 0-2 are the center, 3-5 the x half-axis, 6-8 the y half-axis,
9-11 the z half-axis.  Field `eK` is element `K` of the flat list. -/
structure Box where
  e0 : Rat
  e1 : Rat
  e2 : Rat
  e3 : Rat
  e4 : Rat
  e5 : Rat
  e6 : Rat
  e7 : Rat
  e8 : Rat
  e9 : Rat
  e10 : Rat
  e11 : Rat
deriving DecidableEq, Repr

/-- A tile node of the tile tree, as loaded by the external py3dtiles
library: optional flat column-major transform, optional box bounding
volume, optional content uri, refine mode, children.  An absent or
`None` transform is `none` (the Python code treats both as unusable). -/
inductive Tile where
  | mk : Option (List Rat) → Option Box → Option String → Option String → List Tile → Tile

namespace Tile

def transform : Tile → Option (List Rat)
  | mk tr _ _ _ _ => tr

def box : Tile → Option Box
  | mk _ bx _ _ _ => bx

def contentUri : Tile → Option String
  | mk _ _ uri _ _ => uri

def refine : Tile → Option String
  | mk _ _ _ rf _ => rf

def children : Tile → List Tile
  | mk _ _ _ _ cs => cs

end Tile

/- ===================================================================
   Core footprint+height pipeline: src/core/tilesParserSinglePoligonZ.py
   =================================================================== -/

namespace CoreZ

/-- The eight local corners of `_recursive_collect`: center ∓ x-axis
∓ y-axis ∓ z-axis, bottom face first, in the order of the source list. -/
def localCorners (b : Box) : List Point3 :=
  [(b.e0 - b.e3 - b.e6 - b.e9, b.e1 - b.e4 - b.e7 - b.e10, b.e2 - b.e5 - b.e8 - b.e11),
   (b.e0 + b.e3 - b.e6 - b.e9, b.e1 + b.e4 - b.e7 - b.e10, b.e2 + b.e5 - b.e8 - b.e11),
   (b.e0 + b.e3 + b.e6 - b.e9, b.e1 + b.e4 + b.e7 - b.e10, b.e2 + b.e5 + b.e8 - b.e11),
   (b.e0 - b.e3 + b.e6 - b.e9, b.e1 - b.e4 + b.e7 - b.e10, b.e2 - b.e5 + b.e8 - b.e11),
   (b.e0 - b.e3 - b.e6 + b.e9, b.e1 - b.e4 - b.e7 + b.e10, b.e2 - b.e5 - b.e8 + b.e11),
   (b.e0 + b.e3 - b.e6 + b.e9, b.e1 + b.e4 - b.e7 + b.e10, b.e2 + b.e5 - b.e8 + b.e11),
   (b.e0 + b.e3 + b.e6 + b.e9, b.e1 + b.e4 + b.e7 + b.e10, b.e2 + b.e5 + b.e8 + b.e11),
   (b.e0 - b.e3 + b.e6 + b.e9, b.e1 - b.e4 + b.e7 + b.e10, b.e2 - b.e5 + b.e8 + b.e11)]

/-- `max(z_values)` over the (nonempty) list of local corner z values,
as Python `max` folds from the first element. -/
def zMax (b : Box) : Rat :=
  ((localCorners b).map Point3.z).foldl max ((localCorners b).headD default).z

/-- `min(z_values)`, as Python `min`. -/
def zMin (b : Box) : Rat :=
  ((localCorners b).map Point3.z).foldl min ((localCorners b).headD default).z

/-- The transform update of `_recursive_collect`:
`current = parent.copy(); if tile.transform is not None: try current = current @ reshape(transform)`.
The reshape raises unless the flat transform has exactly 16 elements, and
the `except` clause keeps the parent transform. -/
def currentTransform (tr : Option (List Rat)) (parent : Mat4) : Mat4 :=
  match tr with
  | some l => if l.length = 16 then parent.mul (Mat4.fromColumnMajor l) else parent
  | none => parent

/-- Python `str.endswith` over the character sequences. -/
def endsWithChars (s suf : List Char) : Bool :=
  List.drop (s.length - suf.length) s == suf

/-- `tile_url and str(tile_url).lower().endswith(".b3dm")`. -/
def isB3dm : Option String → Bool
  | some u => endsWithChars (u.data.map Char.toLower) ".b3dm".data
  | none => false

/-- A persisted record (`bounds_info`) of the footprint+height pipeline.
`ring` is the closed bottom ring from which the `POLYGON Z` EWKT text is
rendered (the Python code renders it with six fixed decimals; the exact
decimal rendering is irrelevant to every claim and is modelled by
`toString`). -/
structure BoundsInfo where
  ring : List Point3
  ewkt : String
  tileUrl : Option String
  refine : Option String
  tilesetDir : String
  height : Rat
deriving DecidableEq

/-- Coordinate text `f"{x} {y} {z}"` for one point of a ring. -/
def fmtPoint (p : Point3) : String :=
  toString p.x ++ " " ++ toString p.y ++ " " ++ toString p.z

/-- The `bounds_info` built for a qualifying tile: project all eight
corners with the current transform, keep the first four (bottom) world
corners, close the ring with a repeat of the first, render the
`POLYGON Z`, and take the height from the LOCAL corner z extent. -/
def mkBoundsInfo (b : Box) (M : Mat4) (uri : Option String) (rf : Option String)
    (dir : String) : BoundsInfo :=
  let cornersWorld := (localCorners b).map (Mat4.applyPoint M)
  let bottomClosed := cornersWorld.take 4 ++ [(cornersWorld.take 4).headD default]
  { ring := bottomClosed
    ewkt := "POLYGON Z ((" ++ String.intercalate ", " (bottomClosed.map fmtPoint) ++ "))"
    tileUrl := uri
    refine := rf
    tilesetDir := dir
    height := zMax b - zMin b }

/-- The records contributed by the tile itself: only a leaf (empty
children) with a box bounding volume and a `.b3dm` content reference
yields one. -/
def ownRecords (bx : Option Box) (uri : Option String) (rf : Option String)
    (cs : List Tile) (M : Mat4) (dir : String) : List BoundsInfo :=
  if cs.isEmpty then
    match bx with
    | some b => if isB3dm uri then [mkBoundsInfo b M uri rf dir] else []
    | none => []
  else []

/-- `_recursive_collect` of core/tilesParserSinglePoligonZ.py. -/
def collectTile (t : Tile) (parent : Mat4) (dir : String) : List BoundsInfo :=
  match t with
  | Tile.mk tr bx uri rf cs =>
    let current := currentTransform tr parent
    ownRecords bx uri rf cs current dir ++
      (cs.attach.map (fun c => collectTile c.1 current dir)).flatten
termination_by sizeOf t
decreasing_by
  simp only [Tile.mk.sizeOf_spec]
  have h := List.sizeOf_lt_of_mem c.2
  omega

/-- `collect_tileset_bounds`: start the recursion at the root with the
identity matrix (`np.eye(4)`). -/
def collectTilesetBounds (root : Tile) (dir : String) : List BoundsInfo :=
  collectTile root Mat4.identity dir

end CoreZ

/-- List traversal in the Option monad: the Python list comprehension
`[f(p) for p in points]` where `f` may raise — the first raise aborts
the whole comprehension. -/
def mapMOpt (f : α → Option β) : List α → Option (List β)
  | [] => some []
  | a :: l =>
    match f a with
    | none => none
    | some b =>
      match mapMOpt f l with
      | none => none
      | some bs => some (b :: bs)

/- ===================================================================
   Legacy transform application, shared verbatim by
   src/3DTilesParser.py (`apply_transform`, lines 113-142) and
   src/3DTilesParserMultiPath.py (`apply_transform`, lines 131-149):
   repair matrices shorter than 16 elements, then homogeneous multiply
   with an UNGUARDED divide by the homogeneous weight.
   =================================================================== -/

namespace Legacy

/-- The repair step: `if len(transform_matrix) < 16`, build an identity
and, when at least 3 elements are present, drop them into the
translation slots 12/13/14.  Matrices with 16 or more elements pass
through untouched. -/
def repairMatrix (m : List Rat) : List Rat :=
  if m.length < 16 then
    if 3 ≤ m.length then
      [1, 0, 0, 0, 0, 1, 0, 0, 0, 0, 1, 0, m.getD 0 0, m.getD 1 0, m.getD 2 0, 1]
    else
      [1, 0, 0, 0, 0, 1, 0, 0, 0, 0, 1, 0, 0, 0, 0, 1]
  else m

/-- `multiply(matrix, x, y, z, w=1)`: the 4-component homogeneous
product over the flat column-major list, then `x_new / w_new` with no
epsilon guard — `none` models the Python ZeroDivisionError when the
homogeneous weight is exactly zero. -/
def multiply (m : List Rat) (p : Point3) : Option Point3 :=
  let xn := m.getD 0 0 * p.x + m.getD 4 0 * p.y + m.getD 8 0 * p.z + m.getD 12 0
  let yn := m.getD 1 0 * p.x + m.getD 5 0 * p.y + m.getD 9 0 * p.z + m.getD 13 0
  let zn := m.getD 2 0 * p.x + m.getD 6 0 * p.y + m.getD 10 0 * p.z + m.getD 14 0
  let wn := m.getD 3 0 * p.x + m.getD 7 0 * p.y + m.getD 11 0 * p.z + m.getD 15 0
  if wn = 0 then none else some (xn / wn, yn / wn, zn / wn)

/-- `apply_transform(points, transform_matrix)` of 3DTilesParser.py and
3DTilesParserMultiPath.py. -/
def applyTransform (pts : List Point3) (m : List Rat) : Option (List Point3) :=
  mapMOpt (multiply (repairMatrix m)) pts

/-- Pure translation of a point, the spec side of the repair claim
("treated as a translation vector embedded in an identity matrix"). -/
def translatePt (tx ty tz : Rat) (p : Point3) : Point3 :=
  (p.x + tx, p.y + ty, p.z + tz)

end Legacy

/- ===================================================================
   Solid-mode WKT synthesis: `create_polyhedron_wkt` of
   src/3DTilesParser.py (and its identical copy in
   src/3DTilesParserMultiPath.py).  `clean_points` only unwraps the
   numpy array nesting of the coordinates and is the identity on the
   plain rational triples of this model.
   =================================================================== -/

namespace Solid

/-- The face vertex-index table into the 8-corner array. -/
def facesIdx : List (List Nat) :=
  [[0, 1, 2, 3], [4, 5, 6, 7], [0, 1, 5, 4], [1, 2, 6, 5], [2, 3, 7, 6], [3, 0, 4, 7]]

/-- Coordinate text `f"{x} {y} {z}"` of one corner. -/
def fmtPoint (p : Point3) : String :=
  toString p.x ++ " " ++ toString p.y ++ " " ++ toString p.z

/-- One face ring as its list of coordinate strings: the four indexed
corners, closed by appending the first coordinate string again
(`polygon_points.append(polygon_points[0])`). -/
def faceRing (pts : List Point3) (face : List Nat) : List String :=
  let ss := (face.map (fun i => pts.getD i default)).map fmtPoint
  ss ++ [ss.headD ""]

/-- One face wrapped in its own nested bracket: `f"(({', '.join(...)}))"`. -/
def facePolygon (pts : List Point3) (face : List Nat) : String :=
  "((" ++ String.intercalate ", " (faceRing pts face) ++ "))"

/-- `create_polyhedron_wkt`: all six faces concatenated into one
`POLYHEDRALSURFACE Z` literal. -/
def createPolyhedronWkt (pts : List Point3) : String :=
  "POLYHEDRALSURFACE Z (" ++ String.intercalate ", " (facesIdx.map (facePolygon pts)) ++ ")"

end Solid

/- ===================================================================
   MULTIPOLYGON Z pipeline: src/3DTilesParserPoligonZ.py.
   =================================================================== -/

namespace PZ

/-- `1e-10`, the epsilon substituted for near-zero homogeneous weights. -/
def eps : Rat := 1 / 10 ^ 10

/-- Truncate the flat matrix to 16 elements and pad with zeros:
`flat_matrix = flat_matrix[:16]; flat_matrix += [0.0] * (16 - len(flat_matrix))`.
(The preceding flattening of nested arrays is a numpy representation
artifact; the model starts from the flat rational list.) -/
def pad16 (m : List Rat) : List Rat :=
  m.take 16 ++ List.replicate (16 - (m.take 16).length) 0

/-- The diagonal default step: each of the flattened positions 0, 5, 10
and 15 that is exactly zero is overwritten with 1.0 — even inside a
well-formed 16-element matrix. -/
def prepareMatrix (m : List Rat) : List Rat :=
  let t := pad16 m
  let t0 := if t.getD 0 0 = 0 then t.set 0 1 else t
  let t5 := if t0.getD 5 0 = 0 then t0.set 5 1 else t0
  let t10 := if t5.getD 10 0 = 0 then t5.set 10 1 else t5
  if t10.getD 15 0 = 0 then t10.set 15 1 else t10

/-- The raw homogeneous weight `w_new` of `multiply`. -/
def rawW (m : List Rat) (p : Point3) : Rat :=
  m.getD 3 0 * p.x + m.getD 7 0 * p.y + m.getD 11 0 * p.z + m.getD 15 0

/-- The divisor actually used: `if abs(w_new) < 1e-10: w_new = 1e-10`. -/
def wEffective (m : List Rat) (p : Point3) : Rat :=
  if |rawW m p| < eps then eps else rawW m p

/-- `multiply(matrix, x, y, z, w=1.0)` of 3DTilesParserPoligonZ.py:
homogeneous multiply, then perspective divide by the clamped weight.
Total: no division by zero is reachable. -/
def multiply (m : List Rat) (p : Point3) : Point3 :=
  let xn := m.getD 0 0 * p.x + m.getD 4 0 * p.y + m.getD 8 0 * p.z + m.getD 12 0
  let yn := m.getD 1 0 * p.x + m.getD 5 0 * p.y + m.getD 9 0 * p.z + m.getD 13 0
  let zn := m.getD 2 0 * p.x + m.getD 6 0 * p.y + m.getD 10 0 * p.z + m.getD 14 0
  (xn / wEffective m p, yn / wEffective m p, zn / wEffective m p)

/-- `apply_transform` of 3DTilesParserPoligonZ.py: prepare the flat
matrix (truncate/pad, diagonal defaults), then multiply every point. -/
def applyTransform (pts : List Point3) (m : List Rat) : List Point3 :=
  pts.map (multiply (prepareMatrix m))

end PZ

/- ===================================================================
   MD5, modelling Python's hashlib.md5(...).hexdigest() (RFC 1321).
   32-bit machine words are naturals reduced mod 2^32.
   =================================================================== -/

namespace MD5

/-- UTF-8 encoding of one code point, for `tile_url.encode('utf-8')`. -/
def utf8Bytes (c : Nat) : List Nat :=
  if c < 128 then [c]
  else if c < 2048 then [192 + c / 64, 128 + c % 64]
  else if c < 65536 then [224 + c / 4096, 128 + c / 64 % 64, 128 + c % 64]
  else [240 + c / 262144, 128 + c / 4096 % 64, 128 + c / 64 % 64, 128 + c % 64]

/-- The UTF-8 byte sequence of a string. -/
def strBytes (s : String) : List Nat :=
  s.data.foldr (fun c acc => utf8Bytes c.toNat ++ acc) []

def m32 : Nat := 4294967296

/-- Left rotation of a 32-bit word. -/
def rotl (x s : Nat) : Nat :=
  (x * 2 ^ s + x / 2 ^ (32 - s)) % m32

/-- Bitwise complement of a 32-bit word. -/
def bnot (x : Nat) : Nat := 4294967295 - x

def fF (b c d : Nat) : Nat := (b &&& c) ||| (bnot b &&& d)

def fG (b c d : Nat) : Nat := (d &&& b) ||| (bnot d &&& c)

def fH (b c d : Nat) : Nat := b ^^^ c ^^^ d

def fI (b c d : Nat) : Nat := c ^^^ (b ||| bnot d)

/-- The 64 sine-derived constants of RFC 1321. -/
def kTable : List Nat :=
  [0xd76aa478, 0xe8c7b756, 0x242070db, 0xc1bdceee,
   0xf57c0faf, 0x4787c62a, 0xa8304613, 0xfd469501,
   0x698098d8, 0x8b44f7af, 0xffff5bb1, 0x895cd7be,
   0x6b901122, 0xfd987193, 0xa679438e, 0x49b40821,
   0xf61e2562, 0xc040b340, 0x265e5a51, 0xe9b6c7aa,
   0xd62f105d, 0x02441453, 0xd8a1e681, 0xe7d3fbc8,
   0x21e1cde6, 0xc33707d6, 0xf4d50d87, 0x455a14ed,
   0xa9e3e905, 0xfcefa3f8, 0x676f02d9, 0x8d2a4c8a,
   0xfffa3942, 0x8771f681, 0x6d9d6122, 0xfde5380c,
   0xa4beea44, 0x4bdecfa9, 0xf6bb4b60, 0xbebfbc70,
   0x289b7ec6, 0xeaa127fa, 0xd4ef3085, 0x04881d05,
   0xd9d4d039, 0xe6db99e5, 0x1fa27cf8, 0xc4ac5665,
   0xf4292244, 0x432aff97, 0xab9423a7, 0xfc93a039,
   0x655b59c3, 0x8f0ccc92, 0xffeff47d, 0x85845dd1,
   0x6fa87e4f, 0xfe2ce6e0, 0xa3014314, 0x4e0811a1,
   0xf7537e82, 0xbd3af235, 0x2ad7d2bb, 0xeb86d391]

/-- The per-round left-rotation amounts. -/
def sTable : List Nat :=
  [7, 12, 17, 22, 7, 12, 17, 22, 7, 12, 17, 22, 7, 12, 17, 22,
   5, 9, 14, 20, 5, 9, 14, 20, 5, 9, 14, 20, 5, 9, 14, 20,
   4, 11, 16, 23, 4, 11, 16, 23, 4, 11, 16, 23, 4, 11, 16, 23,
   6, 10, 15, 21, 6, 10, 15, 21, 6, 10, 15, 21, 6, 10, 15, 21]

/-- Little-endian byte decomposition of a number. -/
def leBytes (n x : Nat) : List Nat :=
  (List.range n).map (fun i => x / 256 ^ i % 256)

/-- Pad the message: a 0x80 byte, zeros to 56 mod 64, then the original
bit length as 8 little-endian bytes. -/
def padMessage (bytes : List Nat) : List Nat :=
  let z := (119 - bytes.length % 64) % 64
  bytes ++ [128] ++ List.replicate z 0 ++ leBytes 8 (bytes.length * 8 % 2 ^ 64)

/-- The 16 little-endian 32-bit words of one 64-byte chunk. -/
def chunkWords (chunk : List Nat) : List Nat :=
  (List.range 16).map (fun j =>
    chunk.getD (4 * j) 0 + 256 * chunk.getD (4 * j + 1) 0 +
    65536 * chunk.getD (4 * j + 2) 0 + 16777216 * chunk.getD (4 * j + 3) 0)

/-- Split into 64-byte chunks.  The first argument is fuel (an upper
bound on the number of chunks) keeping the recursion structural. -/
def chunksOf64 : Nat → List Nat → List (List Nat)
  | 0, _ => []
  | _ + 1, [] => []
  | fuel + 1, l => l.take 64 :: chunksOf64 fuel (l.drop 64)

/-- One of the 64 rounds on the state (a, b, c, d). -/
def round (w : List Nat) (st : Nat × Nat × Nat × Nat) (i : Nat) :
    Nat × Nat × Nat × Nat :=
  let (a, b, c, d) := st
  let fg :=
    if i < 16 then (fF b c d, i)
    else if i < 32 then (fG b c d, (5 * i + 1) % 16)
    else if i < 48 then (fH b c d, (3 * i + 5) % 16)
    else (fI b c d, 7 * i % 16)
  let tmp := (a + fg.1 + kTable.getD i 0 + w.getD fg.2 0) % m32
  (d, (b + rotl tmp (sTable.getD i 0)) % m32, b, c)

/-- Process one 64-byte chunk into the running digest state. -/
def processChunk (h : Nat × Nat × Nat × Nat) (chunk : List Nat) :
    Nat × Nat × Nat × Nat :=
  let st := (List.range 64).foldl (round (chunkWords chunk)) h
  ((h.1 + st.1) % m32, (h.2.1 + st.2.1) % m32,
   (h.2.2.1 + st.2.2.1) % m32, (h.2.2.2 + st.2.2.2) % m32)

def hexDigit (n : Nat) : Char :=
  "0123456789abcdef".data.getD n (Char.ofNat 48)

/-- Lowercase hex rendering of a 32-bit word, least significant byte
first, as `hexdigest` renders the little-endian digest. -/
def wordHex (x : Nat) : List Char :=
  (leBytes 4 x).foldr (fun b acc => hexDigit (b / 16) :: hexDigit (b % 16) :: acc) []

/-- `hashlib.md5(s.encode('utf-8')).hexdigest()`. -/
def md5Hex (s : String) : String :=
  let bytes := strBytes s
  let padded := padMessage bytes
  let chunks := chunksOf64 (padded.length) padded
  let h := chunks.foldl processChunk (0x67452301, 0xefcdab89, 0x98badcfe, 0x10325476)
  String.mk (wordHex h.1 ++ wordHex h.2.1 ++ wordHex h.2.2.1 ++ wordHex h.2.2.2)

end MD5

/-- The eight local corners built from `cx, cy, cz` and the half-lengths
`hx = box[3]`, `hy = box[7]`, `hz = box[11]`, shared by 3DTilesParser.py,
3DTilesParserMultiPath.py and 3DTilesParserPoligonZ.py. -/
def cornersFromHalfLengths (b : Box) : List Point3 :=
  [(b.e0 - b.e3, b.e1 - b.e7, b.e2 - b.e11),
   (b.e0 + b.e3, b.e1 - b.e7, b.e2 - b.e11),
   (b.e0 + b.e3, b.e1 + b.e7, b.e2 - b.e11),
   (b.e0 - b.e3, b.e1 + b.e7, b.e2 - b.e11),
   (b.e0 - b.e3, b.e1 - b.e7, b.e2 + b.e11),
   (b.e0 + b.e3, b.e1 - b.e7, b.e2 + b.e11),
   (b.e0 + b.e3, b.e1 + b.e7, b.e2 + b.e11),
   (b.e0 - b.e3, b.e1 + b.e7, b.e2 + b.e11)]

/-- Concatenate a list of partial results in the Option monad: the
Python `bounds_list.extend(...)` loop where any raise aborts the run. -/
def seqOpt : List (Option (List α)) → Option (List α)
  | [] => some []
  | e :: es =>
    match e with
    | none => none
    | some l =>
      match seqOpt es with
      | none => none
      | some ls => some (l ++ ls)

/-- Concatenate a list of partial results in the Except monad; the first
error (the first uncaught Python exception) wins. -/
def seqExcept : List (Except String (List α)) → Except String (List α)
  | [] => Except.ok []
  | e :: es =>
    match e with
    | Except.error msg => Except.error msg
    | Except.ok l =>
      match seqExcept es with
      | Except.error msg => Except.error msg
      | Except.ok ls => Except.ok (l ++ ls)

/- ===================================================================
   Solid multi-tileset pipeline: src/3DTilesParserMultiPath.py.
   Its `_recursive_collect` PREFERS the tile's own transform and only
   inherits the parent transform when the tile has none.
   =================================================================== -/

namespace MP

/-- A collected record of the MultiPath pipeline.  `points` carries the
projected corners the WKT literal is rendered from.  (The source also
tags tileset/parent directory strings; they are plain bookkeeping and
play no role in any claim.) -/
structure MPRec where
  points : List Point3
  wkt : String
  tileUrl : Option String
  refine : Option String
deriving DecidableEq

/-- Lines 77-80: `tile_transform = tile.transform if hasattr(tile, 'transform')
else current_transform` — a present local transform REPLACES the
inherited one instead of being composed with it. -/
def tileTransform (tr : Option (List Rat)) (current : Option (List Rat)) :
    Option (List Rat) :=
  match tr with
  | some l => some l
  | none => current

/-- `_recursive_collect` of 3DTilesParserMultiPath.py: every tile with a
box bounding volume is collected (no leaf or content filter), the
points are transformed by `tile_transform` when it is not None, and the
children inherit `tile_transform`.  `none` models an uncaught
ZeroDivisionError aborting the run. -/
def collectTile (t : Tile) (current : Option (List Rat)) : Option (List MPRec) :=
  match t with
  | Tile.mk tr bx uri rf cs =>
    let tt := tileTransform tr current
    let own : Option (List MPRec) :=
      match bx with
      | some b =>
        let pts := cornersFromHalfLengths b
        (match tt with
         | some m => Legacy.applyTransform pts m
         | none => some pts).map
          (fun ptsT =>
            [{ points := ptsT
               wkt := Solid.createPolyhedronWkt ptsT
               tileUrl := uri
               refine := rf }])
      | none => some []
    match own with
    | none => none
    | some o =>
      match seqOpt (cs.attach.map (fun c => collectTile c.1 tt)) with
      | none => none
      | some rest => some (o ++ rest)
termination_by sizeOf t
decreasing_by
  simp only [Tile.mk.sizeOf_spec]
  have h := List.sizeOf_lt_of_mem c.2
  omega

/-- The list of projected corner lists, one per collected record. -/
def collectedPoints (t : Tile) (current : Option (List Rat)) :
    Option (List (List Point3)) :=
  (collectTile t current).map (List.map MPRec.points)

end MP

/- ===================================================================
   MULTIPOLYGON Z collector: src/3DTilesParserPoligonZ.py
   `collect_tileset_bounds`, with the duplicate-point assert.
   =================================================================== -/

namespace PZ

/-- The flat identity used for `current_transform or [1, 0, ..., 1]`. -/
def identityFlat : List Rat :=
  [1, 0, 0, 0, 0, 1, 0, 0, 0, 0, 1, 0, 0, 0, 0, 1]

/-- A collected record of the MULTIPOLYGON Z pipeline; `points` carries
the transformed corners the WKT is rendered from. -/
structure PZRec where
  points : List Point3
  wkt : Option String
  tileUrl : Option String
  refine : Option String
  tilesetDir : String
deriving DecidableEq

/-- `create_multipolygon_wkt`: `None` unless exactly 8 corners, else the
six-face MULTIPOLYGON Z literal over the same face index table. -/
def createMultipolygonWkt (pts : List Point3) : Option String :=
  if pts.length = 8 then
    some ("MULTIPOLYGON Z (" ++
      String.intercalate ", " (Solid.facesIdx.map (Solid.facePolygon pts)) ++ ")")
  else none

/-- Lines 81-84: the tile's own transform replaces the inherited one,
and an absent inherited transform falls back to the flat identity
(`current_transform or [1, 0, ..., 1]`). -/
def tileTransformOf (tr : Option (List Rat)) (current : Option (List Rat)) : List Rat :=
  match tr with
  | some l => l
  | none => match current with | some c => c | none => identityFlat

/-- The record (or AssertionError) contributed by one tile with
bounding volume `bx` under the flat transform `tt`: transform the 8
corners, then assert they are pairwise distinct by comparing the count
of distinct points (`set(...)`, here `dedup`) with the point count. -/
def ownExcept (bx : Option Box) (uri rf : Option String) (tt : List Rat)
    (dir : String) : Except String (List PZRec) :=
  match bx with
  | some b =>
    let transformed := applyTransform (cornersFromHalfLengths b) tt
    if transformed.dedup.length = transformed.length then
      Except.ok [{ points := transformed
                   wkt := createMultipolygonWkt transformed
                   tileUrl := uri
                   refine := rf
                   tilesetDir := dir }]
    else Except.error "存在重复点！"
  | none => Except.ok []

/-- `_recursive_collect` of 3DTilesParserPoligonZ.py.  The duplicate
point assert raises AssertionError, which nothing catches, so the whole
traversal aborts (`Except.error`); children inherit the tile's
transform. -/
def collectTile (t : Tile) (current : Option (List Rat)) (dir : String) :
    Except String (List PZRec) :=
  match t with
  | Tile.mk tr bx uri rf cs =>
    match ownExcept bx uri rf (tileTransformOf tr current) dir with
    | Except.error msg => Except.error msg
    | Except.ok o =>
      match seqExcept (cs.attach.map
          (fun c => collectTile c.1 (some (tileTransformOf tr current)) dir)) with
      | Except.error msg => Except.error msg
      | Except.ok rest => Except.ok (o ++ rest)
termination_by sizeOf t
decreasing_by
  simp only [Tile.mk.sizeOf_spec]
  have h := List.sizeOf_lt_of_mem c.2
  omega

/-- True iff the traversal finished without an uncaught exception. -/
def collectOk (t : Tile) (current : Option (List Rat)) (dir : String) : Bool :=
  match collectTile t current dir with
  | Except.ok _ => true
  | Except.error _ => false

end PZ

/- ===================================================================
   Identifier assignment at ingestion.
   =================================================================== -/

namespace Ids

/-- `insert_buildings_to_postgis` of core/tilesParserSinglePoligonZ.py:
the record id is the MD5 hex of `tile_url` when present; otherwise
`str(uuid.uuid4())`, modelled by the `fresh` entropy argument — a value
drawn anew on every run. -/
def assignRecordId (tileUrl : Option String) (fresh : String) : String :=
  match tileUrl with
  | some u => MD5.md5Hex u
  | none => fresh

/-- `insert_buildings_to_postgis` of 3DTilesParserSinglePoligon.py:
`str(uuid.uuid4())` unconditionally — the content reference is ignored
for identity. -/
def assignRecordIdSP (_tileUrl : Option String) (fresh : String) : String :=
  fresh

end Ids

/- ===================================================================
   Collision engine: `check_collision_in_db` of
   src/collision/collision_detector.py (SQL over the stored records).
   The external PostGIS primitives are modelled exactly:
   ST_Force2D drops z, ST_PointN(ST_ExteriorRing(g), 1) is the first
   ring vertex, and ST_Intersects(polygon, point) is boundary-inclusive
   point-in-polygon (even-odd rule plus on-boundary test).
   =================================================================== -/

namespace Collision

/-- A stored `dk_buildings` row as the query reads it. -/
structure DbRow where
  id : String
  tileUrl : Option String
  sourceDir : String
  height : Rat
  ring : List Point3
deriving DecidableEq

/-- `ST_Z(ST_PointN(ST_ExteriorRing(bounding_volume), 1))`. -/
def groundZ (r : DbRow) : Rat :=
  (r.ring.headD default).z

/-- `ST_Force2D`. -/
def force2D (ring : List Point3) : List (Rat × Rat) :=
  ring.map (fun p => (p.x, p.y))

/-- Whether `p` lies on the closed segment from `a` to `b`. -/
def onSegment (p a b : Rat × Rat) : Bool :=
  decide ((b.1 - a.1) * (p.2 - a.2) = (b.2 - a.2) * (p.1 - a.1)) &&
  decide (min a.1 b.1 ≤ p.1) && decide (p.1 ≤ max a.1 b.1) &&
  decide (min a.2 b.2 ≤ p.2) && decide (p.2 ≤ max a.2 b.2)

/-- Whether the edge from `a` to `b` crosses the leftward horizontal ray
from `p` (even-odd crossing rule). -/
def crossesRay (p a b : Rat × Rat) : Bool :=
  (decide (a.2 > p.2) != decide (b.2 > p.2)) &&
  decide (p.1 < a.1 + (b.1 - a.1) * (p.2 - a.2) / (b.2 - a.2))

/-- The consecutive edges of a closed ring. -/
def edges (ring : List (Rat × Rat)) : List ((Rat × Rat) × (Rat × Rat)) :=
  ring.zip ring.tail

/-- Boundary-inclusive point-in-polygon, the model of
`ST_Intersects(ST_Force2D(bounding_volume), point)`. -/
def pointInRing (ring : List (Rat × Rat)) (p : Rat × Rat) : Bool :=
  (edges ring).any (fun e => onSegment p e.1 e.2) ||
  decide ((edges ring).countP (fun e => crossesRay p e.1 e.2) % 2 = 1)

/-- The WHERE clause of the collision query: 2-D containment AND
`ground_z ≤ z` AND `z ≤ ground_z + height`, both bounds inclusive. -/
def matchesRow (r : DbRow) (x y z : Rat) : Bool :=
  pointInRing (force2D r.ring) (x, y) &&
  decide (z ≥ groundZ r) && decide (z ≤ groundZ r + r.height)

/-- `check_collision_in_db`: all rows satisfying the WHERE clause. -/
def checkCollisionInDb (db : List DbRow) (x y z : Rat) : List DbRow :=
  db.filter (fun r => matchesRow r x y z)

end Collision

/- ===================================================================
   Concrete fixtures used by the example parts of the theorems below.
   =================================================================== -/

/-- The unit box centered at the origin: center 0, axes x, y, z. -/
def unitBox : Box := ⟨0, 0, 0, 1, 0, 0, 0, 1, 0, 0, 0, 1⟩

/-- A fully degenerate box: all 12 scalars zero, so every corner is the
origin. -/
def degBox : Box := ⟨0, 0, 0, 0, 0, 0, 0, 0, 0, 0, 0, 0⟩

/-- A leaf tile with a box and a `.b3dm` content reference. -/
def singleTile : Tile := Tile.mk none (some unitBox) (some "a.b3dm") (some "ADD") []

/-- A leaf tile with a `.b3dm` content reference but NO bounding volume. -/
def leafNoBox : Tile := Tile.mk none none (some "a.b3dm") none []

/-- Column-major translation by (0, 0, 5). -/
def tpFlat : List Rat := [1, 0, 0, 0, 0, 1, 0, 0, 0, 0, 1, 0, 0, 0, 5, 1]

/-- Column-major translation by (1, 0, 0). -/
def tlFlat : List Rat := [1, 0, 0, 0, 0, 1, 0, 0, 0, 0, 1, 0, 1, 0, 0, 1]

/-- A child with its own local transform and the unit box. -/
def mpChild : Tile := Tile.mk (some tlFlat) (some unitBox) (some "c.b3dm") none []

/-- A root carrying a transform and one transformed child. -/
def mpRoot : Tile := Tile.mk (some tpFlat) none none none [mpChild]

/-- The corners the MultiPath pipeline actually produces for `mpChild`:
the unit-box corners translated by the CHILD transform only. -/
def mpActualPts : List Point3 :=
  [(0, -1, -1), (2, -1, -1), (2, 1, -1), (0, 1, -1),
   (0, -1, 1), (2, -1, 1), (2, 1, 1), (0, 1, 1)]

/-- A tile whose eight projected corners all coincide. -/
def pzBad : Tile := Tile.mk none (some degBox) (some "b.b3dm") none []

/-- A well-formed sibling of `pzBad`. -/
def pzGood : Tile := Tile.mk none (some unitBox) (some "g.b3dm") none []

/-- A tree with one degenerate tile followed by a good sibling. -/
def pzRoot : Tile := Tile.mk none none none none [pzBad, pzGood]

/-- The same tree with the degenerate tile removed. -/
def pzGoodRoot : Tile := Tile.mk none none none none [pzGood]

/-- Column-major rotation by 90 degrees about the z axis: a valid
16-element transform whose diagonal entries 0 and 5 are exactly zero. -/
def rot90 : List Rat := [0, 1, 0, 0, -1, 0, 0, 0, 0, 0, 1, 0, 0, 0, 0, 1]

/-- A well-formed 16-element matrix that is all zeros. -/
def zero16 : List Rat := [0, 0, 0, 0, 0, 0, 0, 0, 0, 0, 0, 0, 0, 0, 0, 0]

/-- A 17-element flat transform: the identity plus one junk element. -/
def m17 : List Rat := [1, 0, 0, 0, 0, 1, 0, 0, 0, 0, 1, 0, 0, 0, 0, 1, 99]

/-- A stored building over the square footprint of the spec's collision
example: ring [(-1,-1),(1,-1),(1,1),(-1,1),(-1,-1)] at z = 0, height 10. -/
def sampleRow : Collision.DbRow :=
  { id := "r1", tileUrl := some "a.b3dm", sourceDir := "d", height := 10
    ring := [(-1, -1, 0), (1, -1, 0), (1, 1, 0), (-1, 1, 0), (-1, -1, 0)] }

/-- A second stored building with the same footprint. -/
def sampleRow2 : Collision.DbRow :=
  { id := "r2", tileUrl := some "b.b3dm", sourceDir := "d", height := 10
    ring := [(-1, -1, 0), (1, -1, 0), (1, 1, 0), (-1, 1, 0), (-1, -1, 0)] }

/-- The record the core pipeline persists for `singleTile`. -/
def witnessRec : CoreZ.BoundsInfo :=
  CoreZ.mkBoundsInfo unitBox Mat4.identity (some "a.b3dm") (some "ADD") "d"

/- ===================================================================
   Helper lemmas.
   =================================================================== -/

/-- Unfolding equation for the core collector with the `attach`
bookkeeping removed: own records first, then the flattened child
collections, both under the updated transform. -/
theorem CoreZ.collectTile_eq (tr : Option (List Rat)) (bx : Option Box)
    (uri rf : Option String) (cs : List Tile) (M : Mat4) (dir : String) :
    CoreZ.collectTile (Tile.mk tr bx uri rf cs) M dir
      = CoreZ.ownRecords bx uri rf cs (CoreZ.currentTransform tr M) dir
        ++ (cs.map (fun c => CoreZ.collectTile c (CoreZ.currentTransform tr M) dir)).flatten := by
  rw [CoreZ.collectTile]
  simp [List.attach_map_coe]

/-- Every record a core-pipeline traversal produces is a `mkBoundsInfo`
of some box and transform, with the traversal's directory tag. -/
theorem CoreZ.mem_collectTile (t : Tile) (M : Mat4) (dir : String)
    (r : CoreZ.BoundsInfo) (h : r ∈ CoreZ.collectTile t M dir) :
    ∃ b M2 u rf, r = CoreZ.mkBoundsInfo b M2 u rf dir := by
  have main : ∀ (n : Nat) (t : Tile) (M : Mat4) (r : CoreZ.BoundsInfo),
      sizeOf t ≤ n → r ∈ CoreZ.collectTile t M dir →
      ∃ b M2 u rf, r = CoreZ.mkBoundsInfo b M2 u rf dir := by
    intro n
    induction n with
    | zero =>
      intro t M r hs _
      cases t with
      | mk tr bx uri rf cs => simp [Tile.mk.sizeOf_spec] at hs
    | succ n ih =>
      intro t M r hs hmem
      cases t with
      | mk tr bx uri rf cs =>
        rw [CoreZ.collectTile_eq] at hmem
        rcases List.mem_append.mp hmem with hown | hrec
        · unfold CoreZ.ownRecords at hown
          split at hown
          · split at hown
            · split at hown
              · rename_i b _
                exact ⟨b, CoreZ.currentTransform tr M, uri, rf,
                  (List.mem_singleton.mp hown)⟩
              · simp at hown
            · simp at hown
          · simp at hown
        · rcases List.mem_flatten.mp hrec with ⟨l, hl, hr⟩
          rcases List.mem_map.mp hl with ⟨c, hc, rfl⟩
          have hsz : sizeOf c ≤ n := by
            have h1 := List.sizeOf_lt_of_mem hc
            simp [Tile.mk.sizeOf_spec] at hs
            omega
          exact ih c (CoreZ.currentTransform tr M) r hsz hr
  exact main (sizeOf t) t M r le_rfl h

/-- Right multiplication by the identity is a no-op. -/
theorem Mat4.mul_identity (A : Mat4) : A.mul Mat4.identity = A := by
  cases A
  simp [Mat4.mul, Mat4.identity]

/-- Matrix multiplication is associative. -/
theorem Mat4.mul_assoc (A B C : Mat4) : (A.mul B).mul C = A.mul (B.mul C) := by
  cases A; cases B; cases C
  simp only [Mat4.mul, Mat4.mk.injEq]
  and_intros <;> ring

/-- The updated transform always keeps the inherited transform as a left
factor: it is the parent times the local matrix, or the parent times the
identity when the local transform is absent or malformed. -/
theorem CoreZ.currentTransform_factor (tr : Option (List Rat)) (M : Mat4) :
    ∃ L : Mat4, CoreZ.currentTransform tr M = M.mul L := by
  match tr with
  | none => exact ⟨Mat4.identity, (Mat4.mul_identity M).symm⟩
  | some l =>
    by_cases h : l.length = 16
    · exact ⟨Mat4.fromColumnMajor l, by simp [CoreZ.currentTransform, h]⟩
    · exact ⟨Mat4.identity, by simp [CoreZ.currentTransform, h, Mat4.mul_identity]⟩

/-- Transform inheritance in the core pipeline, over whole trees: every
record collected under an inherited transform `M` is projected by
`M.mul rest` for some `rest` — the inherited transform is never
discarded anywhere in the subtree. -/
theorem CoreZ.collectTile_inherits (t : Tile) (M : Mat4) (dir : String)
    (r : CoreZ.BoundsInfo) (h : r ∈ CoreZ.collectTile t M dir) :
    ∃ (b : Box) (rest : Mat4) (u rf : Option String),
      r = CoreZ.mkBoundsInfo b (M.mul rest) u rf dir := by
  have main : ∀ (n : Nat) (t : Tile) (M : Mat4) (r : CoreZ.BoundsInfo),
      sizeOf t ≤ n → r ∈ CoreZ.collectTile t M dir →
      ∃ b rest u rf, r = CoreZ.mkBoundsInfo b (M.mul rest) u rf dir := by
    intro n
    induction n with
    | zero =>
      intro t M r hs _
      cases t with
      | mk tr bx uri rf cs => simp [Tile.mk.sizeOf_spec] at hs
    | succ n ih =>
      intro t M r hs hmem
      cases t with
      | mk tr bx uri rf cs =>
        obtain ⟨L, hL⟩ := CoreZ.currentTransform_factor tr M
        rw [CoreZ.collectTile_eq] at hmem
        rcases List.mem_append.mp hmem with hown | hrec
        · unfold CoreZ.ownRecords at hown
          split at hown
          · split at hown
            · split at hown
              · rename_i b _
                refine ⟨b, L, uri, rf, ?_⟩
                rw [← hL]
                exact List.mem_singleton.mp hown
              · simp at hown
            · simp at hown
          · simp at hown
        · rcases List.mem_flatten.mp hrec with ⟨l, hl, hr⟩
          rcases List.mem_map.mp hl with ⟨c, hc, rfl⟩
          have hsz : sizeOf c ≤ n := by
            have h1 := List.sizeOf_lt_of_mem hc
            simp [Tile.mk.sizeOf_spec] at hs
            omega
          obtain ⟨b, rest, u, rf2, hre⟩ := ih c (CoreZ.currentTransform tr M) r hsz hr
          refine ⟨b, L.mul rest, u, rf2, ?_⟩
          rw [hre, hL, Mat4.mul_assoc]
  exact main (sizeOf t) t M r le_rfl h

/- ===================================================================
   Claim theorems.
   =================================================================== -/

/-- Claim C1: for every stored record and query point, the collision
check matches the record iff the 2-D footprint contains (x, y)
(boundary inclusive) and ground_z ≤ z ≤ ground_z + height with both
bounds inclusive, ground_z being the z of the first ring vertex; the
result is the full set of matching records.  On the spec's square
footprint with ground_z = 0 and height 10: (0,0,5), (0,0,0) and
(0,0,10) collide while (0,0,15) and (2,2,5) do not, a footprint
boundary point (1,0,5) collides (boundary inclusive), and two matching
rows are both returned. -/
theorem C1_collision_characterization :
    (∀ (db : List Collision.DbRow) (x y z : Rat) (r : Collision.DbRow),
        r ∈ Collision.checkCollisionInDb db x y z ↔
          r ∈ db ∧ Collision.pointInRing (Collision.force2D r.ring) (x, y) = true
            ∧ Collision.groundZ r ≤ z ∧ z ≤ Collision.groundZ r + r.height)
    ∧ Collision.checkCollisionInDb [sampleRow] 0 0 5 = [sampleRow]
    ∧ Collision.checkCollisionInDb [sampleRow] 0 0 0 = [sampleRow]
    ∧ Collision.checkCollisionInDb [sampleRow] 0 0 10 = [sampleRow]
    ∧ Collision.checkCollisionInDb [sampleRow] 0 0 15 = []
    ∧ Collision.checkCollisionInDb [sampleRow] 2 2 5 = []
    ∧ Collision.checkCollisionInDb [sampleRow] 1 0 5 = [sampleRow]
    ∧ Collision.checkCollisionInDb [sampleRow, sampleRow2] 0 0 5 = [sampleRow, sampleRow2] := by
  refine ⟨?_, ?_, ?_, ?_, ?_, ?_, ?_, ?_⟩
  · intro db x y z r
    simp [Collision.checkCollisionInDb, Collision.matchesRow, List.mem_filter,
      Bool.and_eq_true, decide_eq_true_eq, ge_iff_le, and_assoc]
  all_goals
    norm_num [Collision.checkCollisionInDb, Collision.matchesRow, Collision.pointInRing,
      Collision.force2D, sampleRow, sampleRow2, Collision.edges, Collision.onSegment,
      Collision.crossesRay, List.countP, List.countP.go, Collision.groundZ, List.filter,
      Point3.x, Point3.y, Point3.z]

/-- Claim C2 counterexample: in the MultiPath pipeline the child of
`mpRoot` carries its own local transform, and its corners are projected
by that local transform ALONE — the result differs from projecting by
the claim's `M_p · M_local` composition, so the local transform
replaces rather than composes with the inherited transform. -/
theorem C2_counterexample :
    MP.collectedPoints mpRoot none = some [mpActualPts]
    ∧ mpActualPts ≠ (cornersFromHalfLengths unitBox).map
        (Mat4.applyPoint ((Mat4.fromColumnMajor tpFlat).mul (Mat4.fromColumnMajor tlFlat))) := by
  constructor
  · norm_num [MP.collectedPoints, MP.collectTile, MP.tileTransform, mpRoot, mpChild,
      tpFlat, tlFlat, unitBox, mpActualPts, cornersFromHalfLengths, seqOpt,
      Legacy.applyTransform, Legacy.repairMatrix, Legacy.multiply, mapMOpt,
      Point3.x, Point3.y, Point3.z, List.getD, Solid.createPolyhedronWkt]
  · norm_num [mpActualPts, cornersFromHalfLengths, unitBox, tpFlat, tlFlat,
      Mat4.fromColumnMajor, Mat4.mul, Mat4.applyPoint, Point3.x, Point3.y, Point3.z,
      List.getD]

/-- Claim C2 (amended): in the core footprint pipeline
(tilesParserSinglePoligonZ), the transform used for a node's corners
and inherited by its children is the parent's composed transform
multiplied on the right by the node's local matrix when a well-formed
(16-element) local transform is present, and the parent transform
unchanged when it is absent; the root starts from the identity.  (The
MultiPath pipeline instead replaces the inherited transform, as the
counterexample shows.) -/
theorem C2_amended :
    (∀ (a0 a1 a2 a3 a4 a5 a6 a7 a8 a9 a10 a11 a12 a13 a14 a15 : Rat) (M : Mat4),
        CoreZ.currentTransform
            (some [a0, a1, a2, a3, a4, a5, a6, a7, a8, a9, a10, a11, a12, a13, a14, a15]) M
          = M.mul (Mat4.fromColumnMajor
              [a0, a1, a2, a3, a4, a5, a6, a7, a8, a9, a10, a11, a12, a13, a14, a15]))
    ∧ (∀ M : Mat4, CoreZ.currentTransform none M = M)
    ∧ (∀ (root : Tile) (dir : String),
        CoreZ.collectTilesetBounds root dir = CoreZ.collectTile root Mat4.identity dir)
    ∧ (∀ (tr : Option (List Rat)) (bx : Option Box) (uri rf : Option String)
        (cs : List Tile) (M : Mat4) (dir : String),
        CoreZ.collectTile (Tile.mk tr bx uri rf cs) M dir
          = CoreZ.ownRecords bx uri rf cs (CoreZ.currentTransform tr M) dir
            ++ (cs.map (fun c =>
                  CoreZ.collectTile c (CoreZ.currentTransform tr M) dir)).flatten) := by
  refine ⟨?_, ?_, ?_, ?_⟩
  · intro a0 a1 a2 a3 a4 a5 a6 a7 a8 a9 a10 a11 a12 a13 a14 a15 M
    simp [CoreZ.currentTransform]
  · intro M; rfl
  · intro root dir; rfl
  · intro tr bx uri rf cs M dir
    exact CoreZ.collectTile_eq tr bx uri rf cs M dir


/-- Helper: a left fold by `max` is bounded above by any `k` that bounds
the start and every element — as Python `max` over a list. -/
theorem foldl_max_le {l : List Rat} {k : Rat} (hl : ∀ x ∈ l, x ≤ k) :
    ∀ a : Rat, a ≤ k → l.foldl max a ≤ k := by
  induction l with
  | nil => intro a ha; exact ha
  | cons b l ih =>
    intro a ha
    exact ih (fun x hx => hl x (List.mem_cons_of_mem b hx))
      (max a b) (max_le ha (hl b (List.mem_cons_self b l)))

/-- Helper: the start is below the fold by `max`. -/
theorem start_le_foldl_max : ∀ (l : List Rat) (a : Rat), a ≤ l.foldl max a := by
  intro l
  induction l with
  | nil => intro a; exact le_refl a
  | cons b l ih => intro a; exact le_trans (le_max_left a b) (ih (max a b))

/-- Helper: every element is below the fold by `max`. -/
theorem le_foldl_max {l : List Rat} {x : Rat} (hx : x ∈ l) : ∀ a : Rat, x ≤ l.foldl max a := by
  induction l with
  | nil => cases hx
  | cons b l ih =>
    intro a
    rcases List.mem_cons.mp hx with rfl | hx2
    · exact le_trans (le_max_right a x) (start_le_foldl_max l (max a x))
    · exact ih hx2 (max a b)

/-- Helper: a left fold by `min` is bounded below by any `k` below the
start and every element — as Python `min` over a list. -/
theorem le_foldl_min {l : List Rat} {k : Rat} (hl : ∀ x ∈ l, k ≤ x) :
    ∀ a : Rat, k ≤ a → k ≤ l.foldl min a := by
  induction l with
  | nil => intro a ha; exact ha
  | cons b l ih =>
    intro a ha
    exact ih (fun x hx => hl x (List.mem_cons_of_mem b hx))
      (min a b) (le_min ha (hl b (List.mem_cons_self b l)))

/-- Helper: the fold by `min` is below the start. -/
theorem foldl_min_le_start : ∀ (l : List Rat) (a : Rat), l.foldl min a ≤ a := by
  intro l
  induction l with
  | nil => intro a; exact le_refl a
  | cons b l ih => intro a; exact le_trans (ih (min a b)) (min_le_left a b)

/-- Helper: the fold by `min` is below every element. -/
theorem foldl_min_le {l : List Rat} {x : Rat} (hx : x ∈ l) : ∀ a : Rat, l.foldl min a ≤ x := by
  induction l with
  | nil => cases hx
  | cons b l ih =>
    intro a
    rcases List.mem_cons.mp hx with rfl | hx2
    · exact le_trans (foldl_min_le_start l (min a x)) (min_le_right a x)
    · exact ih hx2 (min a b)

/-- The maximum local-corner z value in closed form: the corner z values
range over `e2 ± e5 ± e8 ± e11` with all sign combinations, so the
maximum is `e2 + |e5| + |e8| + |e11|`. -/
theorem CoreZ.zMax_closed (b : Box) : CoreZ.zMax b = b.e2 + |b.e5| + |b.e8| + |b.e11| := by
  have ha5 := le_abs_self b.e5
  have hn5 := neg_abs_le b.e5
  have ha8 := le_abs_self b.e8
  have hn8 := neg_abs_le b.e8
  have ha11 := le_abs_self b.e11
  have hn11 := neg_abs_le b.e11
  rw [CoreZ.zMax]
  apply le_antisymm
  · apply foldl_max_le
    · intro x hx
      simp only [CoreZ.localCorners, List.map_cons, List.map_nil, List.mem_cons,
        List.not_mem_nil, or_false, Point3.z] at hx
      rcases hx with rfl | rfl | rfl | rfl | rfl | rfl | rfl | rfl <;> linarith
    · simp only [CoreZ.localCorners, List.headD_cons, Point3.z]
      linarith
  · have h2 : (b.e2 + b.e5 + b.e8 - b.e11) ∈ (CoreZ.localCorners b).map Point3.z := by
      simp [CoreZ.localCorners, Point3.z]
    have h3 : (b.e2 - b.e5 + b.e8 - b.e11) ∈ (CoreZ.localCorners b).map Point3.z := by
      simp [CoreZ.localCorners, Point3.z]
    have h4 : (b.e2 - b.e5 - b.e8 + b.e11) ∈ (CoreZ.localCorners b).map Point3.z := by
      simp [CoreZ.localCorners, Point3.z]
    have h5 : (b.e2 + b.e5 - b.e8 + b.e11) ∈ (CoreZ.localCorners b).map Point3.z := by
      simp [CoreZ.localCorners, Point3.z]
    have h6 : (b.e2 + b.e5 + b.e8 + b.e11) ∈ (CoreZ.localCorners b).map Point3.z := by
      simp [CoreZ.localCorners, Point3.z]
    have h7 : (b.e2 - b.e5 + b.e8 + b.e11) ∈ (CoreZ.localCorners b).map Point3.z := by
      simp [CoreZ.localCorners, Point3.z]
    have h0 : (b.e2 - b.e5 - b.e8 - b.e11) ∈ (CoreZ.localCorners b).map Point3.z := by
      simp [CoreZ.localCorners, Point3.z]
    have h1 : (b.e2 + b.e5 - b.e8 - b.e11) ∈ (CoreZ.localCorners b).map Point3.z := by
      simp [CoreZ.localCorners, Point3.z]
    have k0 := le_foldl_max h0 (((CoreZ.localCorners b).headD default).z)
    have k1 := le_foldl_max h1 (((CoreZ.localCorners b).headD default).z)
    have k2 := le_foldl_max h2 (((CoreZ.localCorners b).headD default).z)
    have k3 := le_foldl_max h3 (((CoreZ.localCorners b).headD default).z)
    have k4 := le_foldl_max h4 (((CoreZ.localCorners b).headD default).z)
    have k5 := le_foldl_max h5 (((CoreZ.localCorners b).headD default).z)
    have k6 := le_foldl_max h6 (((CoreZ.localCorners b).headD default).z)
    have k7 := le_foldl_max h7 (((CoreZ.localCorners b).headD default).z)
    rcases abs_cases b.e5 with ⟨he5, _⟩ | ⟨he5, _⟩ <;>
      rcases abs_cases b.e8 with ⟨he8, _⟩ | ⟨he8, _⟩ <;>
        rcases abs_cases b.e11 with ⟨he11, _⟩ | ⟨he11, _⟩ <;>
          linarith

/-- The minimum local-corner z value in closed form. -/
theorem CoreZ.zMin_closed (b : Box) : CoreZ.zMin b = b.e2 - |b.e5| - |b.e8| - |b.e11| := by
  have ha5 := le_abs_self b.e5
  have hn5 := neg_abs_le b.e5
  have ha8 := le_abs_self b.e8
  have hn8 := neg_abs_le b.e8
  have ha11 := le_abs_self b.e11
  have hn11 := neg_abs_le b.e11
  rw [CoreZ.zMin]
  apply le_antisymm
  · have h2 : (b.e2 + b.e5 + b.e8 - b.e11) ∈ (CoreZ.localCorners b).map Point3.z := by
      simp [CoreZ.localCorners, Point3.z]
    have h3 : (b.e2 - b.e5 + b.e8 - b.e11) ∈ (CoreZ.localCorners b).map Point3.z := by
      simp [CoreZ.localCorners, Point3.z]
    have h4 : (b.e2 - b.e5 - b.e8 + b.e11) ∈ (CoreZ.localCorners b).map Point3.z := by
      simp [CoreZ.localCorners, Point3.z]
    have h5 : (b.e2 + b.e5 - b.e8 + b.e11) ∈ (CoreZ.localCorners b).map Point3.z := by
      simp [CoreZ.localCorners, Point3.z]
    have h6 : (b.e2 + b.e5 + b.e8 + b.e11) ∈ (CoreZ.localCorners b).map Point3.z := by
      simp [CoreZ.localCorners, Point3.z]
    have h7 : (b.e2 - b.e5 + b.e8 + b.e11) ∈ (CoreZ.localCorners b).map Point3.z := by
      simp [CoreZ.localCorners, Point3.z]
    have h0 : (b.e2 - b.e5 - b.e8 - b.e11) ∈ (CoreZ.localCorners b).map Point3.z := by
      simp [CoreZ.localCorners, Point3.z]
    have h1 : (b.e2 + b.e5 - b.e8 - b.e11) ∈ (CoreZ.localCorners b).map Point3.z := by
      simp [CoreZ.localCorners, Point3.z]
    have k0 := foldl_min_le h0 (((CoreZ.localCorners b).headD default).z)
    have k1 := foldl_min_le h1 (((CoreZ.localCorners b).headD default).z)
    have k2 := foldl_min_le h2 (((CoreZ.localCorners b).headD default).z)
    have k3 := foldl_min_le h3 (((CoreZ.localCorners b).headD default).z)
    have k4 := foldl_min_le h4 (((CoreZ.localCorners b).headD default).z)
    have k5 := foldl_min_le h5 (((CoreZ.localCorners b).headD default).z)
    have k6 := foldl_min_le h6 (((CoreZ.localCorners b).headD default).z)
    have k7 := foldl_min_le h7 (((CoreZ.localCorners b).headD default).z)
    rcases abs_cases b.e5 with ⟨he5, _⟩ | ⟨he5, _⟩ <;>
      rcases abs_cases b.e8 with ⟨he8, _⟩ | ⟨he8, _⟩ <;>
        rcases abs_cases b.e11 with ⟨he11, _⟩ | ⟨he11, _⟩ <;>
          linarith
  · apply le_foldl_min
    · intro x hx
      simp only [CoreZ.localCorners, List.map_cons, List.map_nil, List.mem_cons,
        List.not_mem_nil, or_false, Point3.z] at hx
      rcases hx with rfl | rfl | rfl | rfl | rfl | rfl | rfl | rfl <;> linarith
    · simp only [CoreZ.localCorners, List.headD_cons, Point3.z]
      linarith

/-- Claim C3: every record the footprint+height pipeline persists has a
ring of exactly the 4 projected bottom corners followed by a repeat of
the first (5 coordinates), and its height is the local z-extent —
maximum minus minimum of the z values of the 8 LOCAL corners, computed
before the world transform is applied (hence independent of the
transform), which in closed form is twice the sum of the absolute z
components of the three half-axes. -/
theorem C3_footprint_ring_height :
    (∀ (b : Box) (M : Mat4) (uri rf : Option String) (dir : String),
        (CoreZ.mkBoundsInfo b M uri rf dir).ring
          = [Mat4.applyPoint M ((CoreZ.localCorners b).getD 0 default),
             Mat4.applyPoint M ((CoreZ.localCorners b).getD 1 default),
             Mat4.applyPoint M ((CoreZ.localCorners b).getD 2 default),
             Mat4.applyPoint M ((CoreZ.localCorners b).getD 3 default),
             Mat4.applyPoint M ((CoreZ.localCorners b).getD 0 default)])
    ∧ (∀ (b : Box) (M : Mat4) (uri rf : Option String) (dir : String),
        (CoreZ.mkBoundsInfo b M uri rf dir).height = CoreZ.zMax b - CoreZ.zMin b)
    ∧ (∀ (b : Box) (M M2 : Mat4) (uri rf : Option String) (dir : String),
        (CoreZ.mkBoundsInfo b M uri rf dir).height
          = (CoreZ.mkBoundsInfo b M2 uri rf dir).height)
    ∧ (∀ (b : Box) (M : Mat4) (uri rf : Option String) (dir : String),
        (CoreZ.mkBoundsInfo b M uri rf dir).height
          = 2 * (|b.e5| + |b.e8| + |b.e11|))
    ∧ (∀ (t : Tile) (M : Mat4) (dir : String) (r : CoreZ.BoundsInfo),
        r ∈ CoreZ.collectTile t M dir →
        r.ring.length = 5 ∧ r.ring.getLast? = r.ring.head?) := by
  refine ⟨?_, ?_, ?_, ?_, ?_⟩
  · intro b M uri rf dir; rfl
  · intro b M uri rf dir; rfl
  · intro b M M2 uri rf dir; rfl
  · intro b M uri rf dir
    have h : (CoreZ.mkBoundsInfo b M uri rf dir).height = CoreZ.zMax b - CoreZ.zMin b := rfl
    rw [h, CoreZ.zMax_closed, CoreZ.zMin_closed]
    ring
  · intro t M dir r hmem
    obtain ⟨b, M2, u, rf2, rfl⟩ := CoreZ.mem_collectTile t M dir r hmem
    exact ⟨rfl, rfl⟩

/-- Witness for C3: the concrete leaf `singleTile` is persisted as
`witnessRec`, whose ring the theorem shows to be closed with 5 points. -/
theorem C3_witness :
    witnessRec ∈ CoreZ.collectTile singleTile Mat4.identity "d"
    ∧ witnessRec.ring.length = 5
    ∧ witnessRec.ring.getLast? = witnessRec.ring.head? := by
  have hb : CoreZ.isB3dm (some "a.b3dm") = true := by decide
  have hmem : witnessRec ∈ CoreZ.collectTile singleTile Mat4.identity "d" := by
    rw [singleTile, CoreZ.collectTile_eq]
    simp [CoreZ.ownRecords, CoreZ.currentTransform, hb, witnessRec]
  exact ⟨hmem, C3_footprint_ring_height.2.2.2.2 singleTile Mat4.identity "d" witnessRec hmem⟩

/-- Helper: a pointwise-successful Option traversal is the plain map. -/
theorem mapMOpt_eq_map (f : α → Option β) (g : α → β)
    (h : ∀ a, f a = some (g a)) : ∀ l : List α, mapMOpt f l = some (l.map g) := by
  intro l
  induction l with
  | nil => rfl
  | cons a l ih => simp [mapMOpt, h a, ih]

/-- Claim C4 counterexample: a 17-element local transform has an element
count other than 16 and at least 3 elements, yet `apply_transform` does
NOT treat it as a translation by its first 3 elements — the repair only
fires below 16 elements, so the matrix is applied as-is through its
first 16 entries.  Here `m17` is the identity plus junk: the origin
stays fixed instead of being translated by (1, 0, 0). -/
theorem C4_counterexample :
    m17.length ≠ 16 ∧ 3 ≤ m17.length
    ∧ Legacy.applyTransform [((0 : Rat), 0, 0)] m17 = some [((0 : Rat), 0, 0)]
    ∧ Legacy.applyTransform [((0 : Rat), 0, 0)] m17
        ≠ some ([((0 : Rat), 0, 0)].map
            (Legacy.translatePt (m17.getD 0 0) (m17.getD 1 0) (m17.getD 2 0))) := by
  refine ⟨by decide, by decide, ?_, ?_⟩
  · norm_num [Legacy.applyTransform, Legacy.repairMatrix, Legacy.multiply, mapMOpt,
      m17, List.getD, Point3.x, Point3.y, Point3.z]
  · norm_num [Legacy.applyTransform, Legacy.repairMatrix, Legacy.multiply, mapMOpt,
      Legacy.translatePt, m17, List.getD, Point3.x, Point3.y, Point3.z, Prod.ext_iff]

/-- Claim C4 (amended): in the legacy `apply_transform` of
3DTilesParser.py / 3DTilesParserMultiPath.py, a local transform with
FEWER than 16 elements is repaired — at least 3 elements become a pure
translation by the first 3 embedded in an identity matrix, fewer than 3
become the plain identity (the points pass through unchanged) — and the
repaired application always succeeds, so a malformed transform never
aborts the traversal; in the core footprint pipeline a local transform
without exactly 16 elements is dropped and the parent transform is used
unchanged. -/
theorem C4_amended :
    (∀ (m : List Rat) (pts : List Point3), m.length < 16 → 3 ≤ m.length →
        Legacy.applyTransform pts m
          = some (pts.map (Legacy.translatePt (m.getD 0 0) (m.getD 1 0) (m.getD 2 0))))
    ∧ (∀ (m : List Rat) (pts : List Point3), m.length < 3 →
        Legacy.applyTransform pts m = some pts)
    ∧ (∀ (l : List Rat) (M : Mat4), l.length ≠ 16 →
        CoreZ.currentTransform (some l) M = M) := by
  refine ⟨?_, ?_, ?_⟩
  · intro m pts h16 h3
    unfold Legacy.applyTransform
    have hrep : Legacy.repairMatrix m
        = [1, 0, 0, 0, 0, 1, 0, 0, 0, 0, 1, 0, m.getD 0 0, m.getD 1 0, m.getD 2 0, 1] := by
      unfold Legacy.repairMatrix
      rw [if_pos h16, if_pos h3]
    rw [hrep]
    apply mapMOpt_eq_map
    intro p
    unfold Legacy.multiply Legacy.translatePt
    norm_num [List.getD, Point3.x, Point3.y, Point3.z]
  · intro m pts h3
    unfold Legacy.applyTransform
    have h16 : m.length < 16 := by omega
    have hrep : Legacy.repairMatrix m
        = [1, 0, 0, 0, 0, 1, 0, 0, 0, 0, 1, 0, 0, 0, 0, 1] := by
      unfold Legacy.repairMatrix
      rw [if_pos h16, if_neg (by omega)]
    rw [hrep]
    have hmap : pts.map (fun p => p) = pts := List.map_id pts
    calc mapMOpt (Legacy.multiply [1, 0, 0, 0, 0, 1, 0, 0, 0, 0, 1, 0, 0, 0, 0, 1]) pts
        = some (pts.map (fun p => p)) := by
          apply mapMOpt_eq_map
          intro p
          unfold Legacy.multiply
          norm_num [List.getD, Point3.x, Point3.y, Point3.z]
      _ = some pts := by rw [hmap]
  · intro l M h
    simp only [CoreZ.currentTransform]
    rw [if_neg h]

/-- Witness for C4: the 7-element transform [10, 20, 30, 4, 5, 6, 7] is
repaired as a pure translation by (10, 20, 30). -/
theorem C4_witness :
    ([10, 20, 30, 4, 5, 6, 7] : List Rat).length < 16
    ∧ 3 ≤ ([10, 20, 30, 4, 5, 6, 7] : List Rat).length
    ∧ Legacy.applyTransform [((1 : Rat), 2, 3)] [10, 20, 30, 4, 5, 6, 7]
        = some ([((1 : Rat), 2, 3)].map (Legacy.translatePt 10 20 30)) :=
  ⟨by decide, by decide,
    C4_amended.1 [10, 20, 30, 4, 5, 6, 7] [((1 : Rat), 2, 3)] (by decide) (by decide)⟩

/-- Claim C5: for every 8-corner input, solid mode produces exactly the
6 face rings of the fixed vertex-index table — bottom [0,1,2,3], top
[4,5,6,7], sides [0,1,5,4], [1,2,6,5], [2,3,7,6], [3,0,4,7] — each ring
closed by repeating its first coordinate string (first and last entries
identical by construction), and each face wrapped in its own nested
double bracket inside the single POLYHEDRALSURFACE Z literal. -/
theorem C5_solid_faces :
    ∀ p0 p1 p2 p3 p4 p5 p6 p7 : Point3,
      Solid.facesIdx.map (Solid.faceRing [p0, p1, p2, p3, p4, p5, p6, p7])
        = [[Solid.fmtPoint p0, Solid.fmtPoint p1, Solid.fmtPoint p2, Solid.fmtPoint p3,
            Solid.fmtPoint p0],
           [Solid.fmtPoint p4, Solid.fmtPoint p5, Solid.fmtPoint p6, Solid.fmtPoint p7,
            Solid.fmtPoint p4],
           [Solid.fmtPoint p0, Solid.fmtPoint p1, Solid.fmtPoint p5, Solid.fmtPoint p4,
            Solid.fmtPoint p0],
           [Solid.fmtPoint p1, Solid.fmtPoint p2, Solid.fmtPoint p6, Solid.fmtPoint p5,
            Solid.fmtPoint p1],
           [Solid.fmtPoint p2, Solid.fmtPoint p3, Solid.fmtPoint p7, Solid.fmtPoint p6,
            Solid.fmtPoint p2],
           [Solid.fmtPoint p3, Solid.fmtPoint p0, Solid.fmtPoint p4, Solid.fmtPoint p7,
            Solid.fmtPoint p3]]
      ∧ (Solid.facesIdx.map (Solid.faceRing [p0, p1, p2, p3, p4, p5, p6, p7])).length = 6
      ∧ Solid.createPolyhedronWkt [p0, p1, p2, p3, p4, p5, p6, p7]
          = "POLYHEDRALSURFACE Z (" ++ String.intercalate ", "
              ((Solid.facesIdx.map (Solid.faceRing [p0, p1, p2, p3, p4, p5, p6, p7])).map
                (fun ring => "((" ++ String.intercalate ", " ring ++ "))")) ++ ")" := by
  intro p0 p1 p2 p3 p4 p5 p6 p7
  refine ⟨rfl, rfl, ?_⟩
  rfl

/-- Claim C6 counterexample: `leafNoBox` is a leaf whose content
reference ends with .b3dm, yet footprint-mode ingestion persists no
record for it, because it carries no box bounding volume — refuting the
claimed "if and only if" whose right side mentions only the leaf and
content-extension conditions. -/
theorem C6_counterexample :
    CoreZ.isB3dm (some "a.b3dm") = true
    ∧ leafNoBox.children = []
    ∧ leafNoBox.contentUri = some "a.b3dm"
    ∧ CoreZ.collectTile leafNoBox Mat4.identity "d" = [] := by
  refine ⟨by decide, rfl, rfl, ?_⟩
  rw [show leafNoBox = Tile.mk none none (some "a.b3dm") none [] from rfl,
    CoreZ.collectTile_eq]
  simp [CoreZ.ownRecords]

/-- Claim C6 (amended): in the core footprint pipeline a tile
contributes a record exactly when it is a leaf AND carries a box
bounding volume AND its content reference case-insensitively ends with
.b3dm; and whatever the filter outcome, the children are always
traversed afterwards. -/
theorem C6_amended :
    (∀ (bx : Option Box) (uri rf : Option String) (cs : List Tile) (M : Mat4) (dir : String),
        CoreZ.ownRecords bx uri rf cs M dir ≠ [] ↔
          cs = [] ∧ bx.isSome = true ∧ CoreZ.isB3dm uri = true)
    ∧ (∀ (tr : Option (List Rat)) (bx : Option Box) (uri rf : Option String)
        (cs : List Tile) (M : Mat4) (dir : String),
        CoreZ.collectTile (Tile.mk tr bx uri rf cs) M dir
          = CoreZ.ownRecords bx uri rf cs (CoreZ.currentTransform tr M) dir
            ++ (cs.map (fun c =>
                  CoreZ.collectTile c (CoreZ.currentTransform tr M) dir)).flatten) := by
  constructor
  · intro bx uri rf cs M dir
    unfold CoreZ.ownRecords
    cases cs with
    | cons c cs => simp
    | nil =>
      cases bx with
      | none => simp
      | some b =>
        by_cases h : CoreZ.isB3dm uri = true
        · simp [h]
        · simp [h]
  · intro tr bx uri rf cs M dir
    exact CoreZ.collectTile_eq tr bx uri rf cs M dir

/-- Claim C7 counterexample: the all-zero matrix is a well-formed
16-element 4x4 transform, and `apply_transform` of 3DTilesParser.py
(also used by the MultiPath pipeline) divides by its raw homogeneous
weight 0 — `none` here is the uncaught Python ZeroDivisionError — so
division by a value of magnitude below 1e-10 IS reachable in code the
claim covers. -/
theorem C7_counterexample :
    zero16.length = 16
    ∧ Legacy.applyTransform [((1 : Rat), 0, 0)] zero16 = none := by
  refine ⟨by decide, ?_⟩
  norm_num [Legacy.applyTransform, Legacy.repairMatrix, Legacy.multiply, mapMOpt, zero16,
    List.getD, Point3.x, Point3.y, Point3.z]

/-- Claim C7 (amended): in the MULTIPOLYGON Z pipeline
(3DTilesParserPoligonZ.py) the multiply is the 4-component homogeneous
product followed by the perspective divide by a clamped weight: whenever
the raw weight has magnitude below 1e-10 the divisor is replaced by
1e-10 itself, so the divisor always has magnitude at least 1e-10 and is
never zero.  The legacy solid-mode `apply_transform` has no such guard
(see the counterexample). -/
theorem C7_amended :
    (∀ (m : List Rat) (p : Point3), PZ.eps ≤ |PZ.wEffective m p|)
    ∧ (∀ (m : List Rat) (p : Point3), PZ.wEffective m p ≠ 0)
    ∧ (∀ (m : List Rat) (p : Point3),
        |PZ.rawW m p| < PZ.eps → PZ.wEffective m p = PZ.eps)
    ∧ (∀ (m : List Rat) (p : Point3),
        PZ.multiply m p
          = ((m.getD 0 0 * p.x + m.getD 4 0 * p.y + m.getD 8 0 * p.z + m.getD 12 0)
                / PZ.wEffective m p,
             (m.getD 1 0 * p.x + m.getD 5 0 * p.y + m.getD 9 0 * p.z + m.getD 13 0)
                / PZ.wEffective m p,
             (m.getD 2 0 * p.x + m.getD 6 0 * p.y + m.getD 10 0 * p.z + m.getD 14 0)
                / PZ.wEffective m p)) := by
  have heps : (0 : Rat) < PZ.eps := by norm_num [PZ.eps]
  have h1 : ∀ (m : List Rat) (p : Point3), PZ.eps ≤ |PZ.wEffective m p| := by
    intro m p
    unfold PZ.wEffective
    split_ifs with h
    · rw [abs_of_pos heps]
    · exact le_of_not_lt h
  refine ⟨h1, ?_, ?_, ?_⟩
  · intro m p hzero
    have := h1 m p
    rw [hzero, abs_zero] at this
    exact absurd this (not_le.mpr heps)
  · intro m p h
    unfold PZ.wEffective
    rw [if_pos h]
  · intro m p
    rfl

/-- Witness for C7: on the all-zero matrix the raw weight is 0, whose
magnitude is below 1e-10, and the divisor is replaced by 1e-10. -/
theorem C7_witness :
    |PZ.rawW zero16 ((0 : Rat), 0, 0)| < PZ.eps
    ∧ PZ.wEffective zero16 ((0 : Rat), 0, 0) = PZ.eps := by
  have h : |PZ.rawW zero16 ((0 : Rat), 0, 0)| < PZ.eps := by
    norm_num [PZ.rawW, zero16, PZ.eps, List.getD, Point3.x, Point3.y, Point3.z]
  exact ⟨h, C7_amended.2.2.1 zero16 ((0 : Rat), 0, 0) h⟩

/-- Helper: the diagonal-default step leaves the flat identity alone. -/
theorem PZ.prepareMatrix_identityFlat : PZ.prepareMatrix PZ.identityFlat = PZ.identityFlat := by
  norm_num [PZ.prepareMatrix, PZ.pad16, PZ.identityFlat, List.getD]

/-- Helper: the PoligonZ multiply by the flat identity is the identity
(the homogeneous weight is exactly 1, above the epsilon). -/
theorem PZ.multiply_identityFlat (p : Point3) : PZ.multiply PZ.identityFlat p = p := by
  norm_num [PZ.multiply, PZ.wEffective, PZ.rawW, PZ.eps, PZ.identityFlat, List.getD,
    Point3.x, Point3.y, Point3.z, Prod.ext_iff]

/-- Helper: applying the flat identity transform moves no point. -/
theorem PZ.applyTransform_identityFlat (pts : List Point3) :
    PZ.applyTransform pts PZ.identityFlat = pts := by
  rw [PZ.applyTransform, PZ.prepareMatrix_identityFlat]
  have h : PZ.multiply PZ.identityFlat = fun p => p := funext PZ.multiply_identityFlat
  rw [h, List.map_id']

/-- Helper: every corner of the all-zero box is the origin. -/
theorem cornersFromHalfLengths_degBox : cornersFromHalfLengths degBox
    = [(0, 0, 0), (0, 0, 0), (0, 0, 0), (0, 0, 0), (0, 0, 0), (0, 0, 0), (0, 0, 0), (0, 0, 0)] := by
  norm_num [cornersFromHalfLengths, degBox, Prod.ext_iff]

/-- Helper: the unit box's eight corners. -/
theorem cornersFromHalfLengths_unitBox : cornersFromHalfLengths unitBox
    = [(-1, -1, -1), (1, -1, -1), (1, 1, -1), (-1, 1, -1),
       (-1, -1, 1), (1, -1, 1), (1, 1, 1), (-1, 1, 1)] := by
  norm_num [cornersFromHalfLengths, unitBox, Prod.ext_iff]

/-- Helper: the unit-box corners are pairwise distinct, so the distinct
count equals the point count. -/
theorem dedup_unitCorners_length :
    (([(-1, -1, -1), (1, -1, -1), (1, 1, -1), (-1, 1, -1),
       (-1, -1, 1), (1, -1, 1), (1, 1, 1), (-1, 1, 1)] : List Point3).dedup).length
    = ([(-1, -1, -1), (1, -1, -1), (1, 1, -1), (-1, 1, -1),
        (-1, -1, 1), (1, -1, 1), (1, 1, 1), (-1, 1, 1)] : List Point3).length := by
  decide

/-- Helper: the degenerate tile trips the duplicate-point assertion. -/
theorem PZ.ownExcept_degBox : PZ.ownExcept (some degBox) (some "b.b3dm") none PZ.identityFlat "d"
    = Except.error "存在重复点！" := by
  rw [PZ.ownExcept]
  simp only [PZ.applyTransform_identityFlat, cornersFromHalfLengths_degBox]
  rw [if_neg]
  norm_num [List.dedup_cons_of_mem, Prod.ext_iff]

/-- Helper: the good tile passes the assertion and yields its record. -/
theorem PZ.ownExcept_unitBox : PZ.ownExcept (some unitBox) (some "g.b3dm") none PZ.identityFlat "d"
    = Except.ok [{ points := [(-1, -1, -1), (1, -1, -1), (1, 1, -1), (-1, 1, -1),
                              (-1, -1, 1), (1, -1, 1), (1, 1, 1), (-1, 1, 1)]
                   wkt := PZ.createMultipolygonWkt
                     [(-1, -1, -1), (1, -1, -1), (1, 1, -1), (-1, 1, -1),
                      (-1, -1, 1), (1, -1, 1), (1, 1, 1), (-1, 1, 1)]
                   tileUrl := some "g.b3dm"
                   refine := none
                   tilesetDir := "d" }] := by
  rw [PZ.ownExcept]
  simp only [PZ.applyTransform_identityFlat, cornersFromHalfLengths_unitBox]
  rw [if_pos dedup_unitCorners_length]

/-- Helper: the PoligonZ collector unfolded, `attach` removed. -/
theorem PZ.collectTile_unfold (tr : Option (List Rat)) (bx : Option Box)
    (uri rf : Option String) (cs : List Tile) (current : Option (List Rat)) (dir : String) :
    PZ.collectTile (Tile.mk tr bx uri rf cs) current dir
      = match PZ.ownExcept bx uri rf (PZ.tileTransformOf tr current) dir with
        | Except.error msg => Except.error msg
        | Except.ok o =>
          match seqExcept (cs.map
              (fun c => PZ.collectTile c (some (PZ.tileTransformOf tr current)) dir)) with
          | Except.error msg => Except.error msg
          | Except.ok rest => Except.ok (o ++ rest) := by
  rw [PZ.collectTile]
  simp [List.attach_map_coe]

/-- Claim C8 is the stated DESIGN (spec sections 4.2 and 7, with the
design note of section 9 flagging the assertion for replacement), and
the code violates it: a tile whose 8 projected corners are not pairwise
distinct raises an uncaught AssertionError that aborts the WHOLE
traversal instead of a tile-scoped skip.  On `pzRoot` — one degenerate
tile followed by a well-formed sibling — the run aborts with the
assertion message and the sibling's record is lost, while the sibling
alone would have been collected successfully. -/
theorem C8_assert_aborts :
    PZ.collectTile pzRoot none "d" = Except.error "存在重复点！"
    ∧ PZ.collectOk pzGoodRoot none "d" = true := by
  have hbad : PZ.collectTile pzBad (some PZ.identityFlat) "d"
      = Except.error "存在重复点！" := by
    rw [show pzBad = Tile.mk none (some degBox) (some "b.b3dm") none [] from rfl,
      PZ.collectTile_unfold]
    rw [show PZ.tileTransformOf none (some PZ.identityFlat) = PZ.identityFlat from rfl]
    rw [PZ.ownExcept_degBox]
  have hgood : PZ.collectTile pzGood (some PZ.identityFlat) "d"
      = Except.ok [{ points := [(-1, -1, -1), (1, -1, -1), (1, 1, -1), (-1, 1, -1),
                                (-1, -1, 1), (1, -1, 1), (1, 1, 1), (-1, 1, 1)]
                     wkt := PZ.createMultipolygonWkt
                       [(-1, -1, -1), (1, -1, -1), (1, 1, -1), (-1, 1, -1),
                        (-1, -1, 1), (1, -1, 1), (1, 1, 1), (-1, 1, 1)]
                     tileUrl := some "g.b3dm"
                     refine := none
                     tilesetDir := "d" }] := by
    rw [show pzGood = Tile.mk none (some unitBox) (some "g.b3dm") none [] from rfl,
      PZ.collectTile_unfold]
    rw [show PZ.tileTransformOf none (some PZ.identityFlat) = PZ.identityFlat from rfl]
    rw [PZ.ownExcept_unitBox]
    rfl
  constructor
  · rw [show pzRoot = Tile.mk none none none none [pzBad, pzGood] from rfl,
      PZ.collectTile_unfold]
    rw [show PZ.tileTransformOf none none = PZ.identityFlat from rfl]
    rw [show PZ.ownExcept none none none PZ.identityFlat "d" = Except.ok [] from rfl]
    simp only [List.map_cons, List.map_nil, hbad, seqExcept]
  · rw [PZ.collectOk]
    rw [show pzGoodRoot = Tile.mk none none none none [pzGood] from rfl, PZ.collectTile_unfold]
    rw [show PZ.tileTransformOf none none = PZ.identityFlat from rfl]
    rw [show PZ.ownExcept none none none PZ.identityFlat "d" = Except.ok [] from rfl]
    simp only [List.map_cons, List.map_nil, hgood, seqExcept]

/-- Claim C9 counterexample: the `3DTilesParserSinglePoligon.py`
ingestion — cited by the claim — assigns `str(uuid.uuid4())` even when
the content reference is present, so two runs drawing different UUIDs
give the SAME content reference different identifiers, refuting the
claimed cross-run determinism of identifier assignment for tiles with a
content reference. -/
theorem C9_counterexample :
    Ids.assignRecordIdSP (some "tiles/0/0.b3dm") "run1-uuid" = "run1-uuid"
    ∧ Ids.assignRecordIdSP (some "tiles/0/0.b3dm") "run2-uuid" = "run2-uuid"
    ∧ ("run1-uuid" : String) ≠ "run2-uuid" := by
  refine ⟨rfl, rfl, by decide⟩

/-- Claim C9 (amended): in the core footprint pipeline
(tilesParserSinglePoligonZ) the identifier of a record with a content
reference is the MD5 hex digest of that reference — a pure function of
it, hence identical within and across runs — and without a content
reference it is exactly the freshly drawn random UUID, with no
determinism guarantee.  The older 3DTilesParserSinglePoligon variant
ignores the content reference and always uses the fresh UUID. -/
theorem C9_amended :
    (∀ (u f1 f2 : String), Ids.assignRecordId (some u) f1 = Ids.assignRecordId (some u) f2)
    ∧ (∀ (u f : String), Ids.assignRecordId (some u) f = MD5.md5Hex u)
    ∧ (∀ f : String, Ids.assignRecordId none f = f)
    ∧ (∀ (url : Option String) (f : String), Ids.assignRecordIdSP url f = f)
    ∧ MD5.md5Hex "tiles/0/0.b3dm" = "d9a3c462a45d0dcdbc663111fa75ce44" := by
  refine ⟨fun u f1 f2 => rfl, fun u f => rfl, fun f => rfl, fun url f => rfl, by decide⟩

/-- Claim C10: in the MULTIPOLYGON Z pipeline's transform preparation,
every entry at flattened positions 0, 5, 10, 15 that is exactly zero is
replaced by 1.0 before the points are multiplied — for EVERY 16-element
matrix, well-formed ones included.  Consequently the valid 90-degree
rotation `rot90` (diagonal entries 0) is not applied as given: the
point (1, 0, 0) is mapped to (1, 1, 0) instead of the true rotation
image (0, 1, 0). -/
theorem C10_diagonal_default :
    (∀ b0 b1 b2 b3 b4 b5 b6 b7 b8 b9 b10 b11 b12 b13 b14 b15 : Rat,
        PZ.prepareMatrix [b0, b1, b2, b3, b4, b5, b6, b7, b8, b9, b10, b11, b12, b13, b14, b15]
          = [if b0 = 0 then 1 else b0, b1, b2, b3,
             b4, if b5 = 0 then 1 else b5, b6, b7,
             b8, b9, if b10 = 0 then 1 else b10, b11,
             b12, b13, b14, if b15 = 0 then 1 else b15])
    ∧ (∀ (pts : List Point3) (m : List Rat),
        PZ.applyTransform pts m = pts.map (PZ.multiply (PZ.prepareMatrix m)))
    ∧ PZ.prepareMatrix rot90 ≠ rot90
    ∧ PZ.applyTransform [((1 : Rat), 0, 0)] rot90 = [((1 : Rat), 1, 0)]
    ∧ PZ.applyTransform [((1 : Rat), 0, 0)] rot90 ≠ [((0 : Rat), 1, 0)] := by
  refine ⟨?_, ?_, ?_, ?_, ?_⟩
  · intro b0 b1 b2 b3 b4 b5 b6 b7 b8 b9 b10 b11 b12 b13 b14 b15
    simp only [PZ.prepareMatrix, PZ.pad16, List.take, List.length_cons, List.length_nil,
      List.getD, List.set]
    norm_num
    split_ifs <;> simp_all
  · intro pts m
    rfl
  · norm_num [PZ.prepareMatrix, PZ.pad16, rot90, List.getD]
  · norm_num [PZ.applyTransform, PZ.prepareMatrix, PZ.pad16, PZ.multiply, PZ.wEffective,
      PZ.rawW, PZ.eps, rot90, List.getD, Point3.x, Point3.y, Point3.z, Prod.ext_iff]
  · norm_num [PZ.applyTransform, PZ.prepareMatrix, PZ.pad16, PZ.multiply, PZ.wEffective,
      PZ.rawW, PZ.eps, rot90, List.getD, Point3.x, Point3.y, Point3.z, Prod.ext_iff]
